import Mathlib

set_option linter.unusedVariables false

/-!
Shallow embedding of the query-service core of dnscrypt-proxy
(src/dnscrypt-proxy/main.go).

Pure data is modelled directly; network and plugin effects are supplied as
oracles (Option-valued outcomes and plain functions), and each query task is
interpreted as the ordered list of its observable events. Constants and packet
helpers that belong to the repository but are outside the provided source file
are modelled from the spec and marked as such in their doc comments.
-/

/-- Modelled from the spec: MinDNSPacketSize (packet codec, not in src) — the
minimal size of a DNS packet, a 12-byte header plus a minimal question
section. -/
def MinDNSPacketSize : Nat := 17

/-- Modelled from the spec: MaxDNSPacketSize (packet codec, not in src) —
upstream replies up to 4096 bytes (spec section 6). -/
def MaxDNSPacketSize : Nat := 4096

/-- Modelled from the spec: MaxDNSUDPPacketSize (packet codec, not in src) —
the largest response emitted to a UDP client, 512 bytes (spec sections 4.2 and
8, scenario 5). -/
def MaxDNSUDPPacketSize : Nat := 512

/-- Modelled from the spec: ResponseOverhead (crypto envelope, not in src) —
the DNSCrypt reply framing overhead: 8-byte resolver magic, 24-byte nonce and
16-byte authentication tag (spec section 4.3). -/
def ResponseOverhead : Nat := 48

/-- Byte accessor on a packet modelled as a list of bytes; out-of-range reads 0. -/
def byteAt (packet : List Nat) (i : Nat) : Nat := (packet[i]?).getD 0

/-- Modelled from the spec: HasTCFlag (packet codec, not in src) — tests the TC
bit, bit 1 of the flags byte at offset 2. -/
def HasTCFlag (packet : List Nat) : Bool :=
  match packet[2]? with
  | none => false
  | some b => b / 2 % 2 == 1

/-- Answer-record count: big-endian 16-bit field at header bytes 6 and 7. -/
def ancount (packet : List Nat) : Nat := 256 * byteAt packet 6 + byteAt packet 7

/-- Question count: big-endian 16-bit field at header bytes 4 and 5. -/
def qdcount (packet : List Nat) : Nat := 256 * byteAt packet 4 + byteAt packet 5

/-- Sets the TC bit of a flags byte (bitwise or with 2). -/
def setTCByte (b : Nat) : Nat := if b / 2 % 2 = 1 then b else b + 2

/-- Walks the label chain of the question name starting at offset off and
returns the offset one past the terminating zero label. Label lengths of 64 or
more (compression pointers and invalid lengths) are rejected. The fuel bounds
the walk. -/
def questionNameEnd (packet : List Nat) (off fuel : Nat) : Option Nat :=
  match fuel with
  | 0 => none
  | fuel' + 1 =>
    match packet[off]? with
    | none => none
    | some l =>
      if l = 0 then some (off + 1)
      else if 64 ≤ l then none
      else questionNameEnd packet (off + 1 + l) fuel'

/-- Modelled from the spec: TruncatedResponse (packet codec, not in src) —
builds the truncated shell: the original header with the TC bit set and all
record counts except the question count cleared, followed by the single
question section (name plus 4 bytes of type and class). Fails on malformed
packets: no in-bounds question, several questions, or a name longer than the
255-byte DNS limit. -/
def TruncatedResponse (packet : List Nat) : Option (List Nat) :=
  match questionNameEnd packet 12 packet.length with
  | none => none
  | some nameEnd =>
    if qdcount packet = 1 ∧ nameEnd - 12 ≤ 255 ∧ nameEnd + 4 ≤ packet.length then
      some (byteAt packet 0 :: byteAt packet 1 :: setTCByte (byteAt packet 2) ::
            byteAt packet 3 :: byteAt packet 4 :: byteAt packet 5 ::
            0 :: 0 :: 0 :: 0 :: 0 :: 0 ::
            (packet.drop 12).take (nameEnd + 4 - 12))
    else none

/-- Modelled from the spec: PrefixWithSize (packet codec, not in src) —
prepends the 2-byte big-endian length; fails when the packet does not fit in
16 bits. -/
def PrefixWithSize (packet : List Nat) : Option (List Nat) :=
  if packet.length < 65536 then
    some (packet.length / 256 :: packet.length % 256 :: packet)
  else none

/-- clientsCountInc (main.go lines 382-392), sequential semantics of one pass
of the CAS loop: read the counter, refuse when at or above maxClients,
otherwise the compare-and-swap installs count+1 in uint32 arithmetic. Returns
(accepted, new counter). -/
def clientsCountInc (clientsCount maxClients : Nat) : Bool × Nat :=
  if maxClients ≤ clientsCount then (false, clientsCount)
  else (true, (clientsCount + 1) % 2 ^ 32)

/-- One iteration of the retry loop of clientsCountDec (main.go lines
394-400): the loop breaks when the counter reads zero, or when the
compare-and-swap succeeds and installs count-1 in uint32 arithmetic
(sequentially the CAS always succeeds). Returns the counter after the
iteration and whether the loop breaks. -/
def clientsCountDecIter (clientsCount : Nat) : Nat × Bool :=
  if clientsCount = 0 then (clientsCount, true)
  else ((clientsCount + 2 ^ 32 - 1) % 2 ^ 32, true)

/-- clientsCountDec (main.go lines 394-400), sequential semantics. -/
def clientsCountDec (clientsCount : Nat) : Nat := (clientsCountDecIter clientsCount).1

/-- Upstream protocol of a server, decoded from its stamp: DNSCrypt or DoH. -/
inductive StampProtoType
  | dnscrypt
  | doh
deriving DecidableEq

/-- The slice of ServerInfo that the dispatcher consults. -/
structure ServerInfo where
  Proto : StampProtoType

/-- Terminal action produced by the query-plugin chain (plugins are outside
src; modelled from the spec: the action is Forward, Drop or Synth). -/
inductive PluginsAction
  | forward
  | drop
  | synthesize
deriving DecidableEq

/-- Outcome of ApplyQueryPlugins for one query: the mutated packet, the
terminal action, and the synthesized response — none when
pluginsState.synthResponse is nil, some none when PackBuffer fails, and
some (some b) when it packs to the bytes b. -/
structure QueryPluginsResult where
  query : List Nat
  action : PluginsAction
  synthPack : Option (Option (List Nat))

/-- Oracles for the upstream world of one query: the outcome of Encrypt, of
the UDP and TCP DNSCrypt exchanges (the decrypted reply, or none on any
network or decryption error), of the DoH POST (none when client.Do fails or
returns no response, otherwise the status code and the body-read outcome), and
the response-plugin transformation, whose error the source discards. -/
structure UpstreamEnv where
  encrypt : Option Unit
  exchangeUDP : Option (List Nat)
  exchangeTCP : Option (List Nat)
  doh : Option (Nat × Option (List Nat))
  responsePlugins : List Nat → List Nat

/-- Observable events of one query task, in program order. -/
inductive Event
  | queryPlugins
  | noticeBegin
  | noticeFailure
  | noticeSuccess
  | exchangeUDP
  | exchangeTCP
  | dohPost
  | responsePlugins
  | writeClient (b : List Nat)
  | blindAdjust
  | adjust (n : Nat)
deriving DecidableEq

/-- The synthesized-response block of processIncomingQuery (main.go lines
410-420): with a non-Forward action, a present synthResponse is packed (a
packing error returns), then a Drop action returns; otherwise the packed bytes
— or the still-empty response — flow on. none encodes the early return. -/
def synthStep (r : QueryPluginsResult) : Option (List Nat) :=
  if r.action ≠ PluginsAction.forward then
    match r.synthPack with
    | some none => none
    | some (some b) => if r.action = PluginsAction.drop then none else some b
    | none => if r.action = PluginsAction.drop then none else some []
  else some []

/-- The upstream exchange of processIncomingQuery (main.go lines 421-469):
DNSCrypt encrypts (silent return on error), records noticeBegin, exchanges
over UDP or TCP according to serverProto, and records noticeFailure on an
exchange error; DoH posts the query and returns silently on a request error,
an absent response, a non-2xx status, or a body read error. Returns the events
and the response, none encoding the early return. -/
def exchangePhase (serverInfo : ServerInfo) (serverProto : String)
    (env : UpstreamEnv) : List Event × Option (List Nat) :=
  match serverInfo.Proto with
  | StampProtoType.dnscrypt =>
    match env.encrypt with
    | none => ([], none)
    | some _ =>
      if serverProto = "udp" then
        match env.exchangeUDP with
        | none => ([Event.noticeBegin, Event.exchangeUDP, Event.noticeFailure], none)
        | some r => ([Event.noticeBegin, Event.exchangeUDP], some r)
      else
        match env.exchangeTCP with
        | none => ([Event.noticeBegin, Event.exchangeTCP, Event.noticeFailure], none)
        | some r => ([Event.noticeBegin, Event.exchangeTCP], some r)
  | StampProtoType.doh =>
    match env.doh with
    | none => ([Event.dohPost], none)
    | some (status, body) =>
      if status < 200 ∨ 299 < status then ([Event.dohPost], none)
      else
        match body with
        | none => ([Event.dohPost], none)
        | some r => ([Event.dohPost], some r)

/-- The UDP emission tail of processIncomingQuery (main.go lines 483-488):
write the response, then update the size estimator — blindAdjust when the
written packet carries TC, otherwise adjust with ResponseOverhead plus the
written length — and record noticeSuccess (line 497). -/
def emitUDP (response : List Nat) : List Event :=
  Event.writeClient response ::
    (if HasTCFlag response then Event.blindAdjust
     else Event.adjust (ResponseOverhead + response.length)) :: [Event.noticeSuccess]

/-- The size policy and emission tail of processIncomingQuery (main.go lines
472-497): responses outside [MinDNSPacketSize, MaxDNSPacketSize] record
noticeFailure and return; a UDP client gets the response truncated via
TruncatedResponse when it exceeds MaxDNSUDPPacketSize (a truncation error
returns silently); a TCP client gets the response length-prefixed (a prefixing
error records noticeFailure and returns). -/
def sizePolicyAndEmit (clientProto : String) (response : List Nat) : List Event :=
  if response.length < MinDNSPacketSize ∨ MaxDNSPacketSize < response.length then
    [Event.noticeFailure]
  else if clientProto = "udp" then
    if MaxDNSUDPPacketSize < response.length then
      match TruncatedResponse response with
      | none => []
      | some t => emitUDP t
    else emitUDP response
  else
    match PrefixWithSize response with
    | none => [Event.noticeFailure]
    | some pr => [Event.writeClient pr, Event.noticeSuccess]

/-- processIncomingQuery (main.go lines 402-498) as the list of its observable
events: reject short queries and absent servers, run the query plugins, handle
synthesized responses and drops, exchange upstream when the response is still
empty, run the response plugins on an upstream response, then apply the size
policy and emit. -/
def processIncomingQuery (serverInfo : Option ServerInfo)
    (clientProto serverProto : String) (query : List Nat)
    (queryPluginsFn : List Nat → QueryPluginsResult) (env : UpstreamEnv) :
    List Event :=
  if query.length < MinDNSPacketSize then []
  else
    match serverInfo with
    | none => []
    | some si =>
      Event.queryPlugins ::
        match synthStep (queryPluginsFn query) with
        | none => []
        | some response0 =>
          if response0.length = 0 then
            match exchangePhase si serverProto env with
            | (es, none) => es
            | (es, some resp) =>
              es ++ Event.responsePlugins ::
                sizePolicyAndEmit clientProto (env.responsePlugins resp)
          else sizePolicyAndEmit clientProto response0

/-- Specification observer: the response that reaches the size policy of
processIncomingQuery — from the synthesized answer, or from the upstream
exchange after response plugins; none when the query returns earlier. Mirrors
the phases of processIncomingQuery. -/
def pipelineResponse (serverInfo : Option ServerInfo) (serverProto : String)
    (query : List Nat) (queryPluginsFn : List Nat → QueryPluginsResult)
    (env : UpstreamEnv) : Option (List Nat) :=
  if query.length < MinDNSPacketSize then none
  else
    match serverInfo with
    | none => none
    | some si =>
      match synthStep (queryPluginsFn query) with
      | none => none
      | some response0 =>
        if response0.length = 0 then
          match (exchangePhase si serverProto env).2 with
          | none => none
          | some resp => some (env.responsePlugins resp)
        else some response0

/-- The per-packet UDP task (main.go lines 289-296): reserve admission,
refusing at the cap, run the pipeline, and release the reservation on exit via
the deferred clientsCountDec. Returns the pipeline events and the final
counter. -/
def udpClientTask (maxClients clientsCount : Nat) (serverInfo : Option ServerInfo)
    (serverProto : String) (packet : List Nat)
    (queryPluginsFn : List Nat → QueryPluginsResult) (env : UpstreamEnv) :
    List Event × Nat :=
  match clientsCountInc clientsCount maxClients with
  | (false, c) => ([], c)
  | (true, c) =>
    (processIncomingQuery serverInfo "udp" serverProto packet queryPluginsFn env,
     clientsCountDec c)

/-- The per-connection TCP task (main.go lines 317-331): reserve admission,
refusing at the cap, read the length-prefixed packet (none models a read
error), drop packets shorter than MinDNSPacketSize before the pipeline, run
the pipeline with client and server protocol forced to tcp, and release the
reservation on exit via the deferred clientsCountDec. -/
def tcpClientTask (maxClients clientsCount : Nat) (readResult : Option (List Nat))
    (serverInfo : Option ServerInfo)
    (queryPluginsFn : List Nat → QueryPluginsResult) (env : UpstreamEnv) :
    List Event × Nat :=
  match clientsCountInc clientsCount maxClients with
  | (false, c) => ([], c)
  | (true, c) =>
    let es :=
      match readResult with
      | none => []
      | some packet =>
        if packet.length < MinDNSPacketSize then []
        else processIncomingQuery serverInfo "tcp" "tcp" packet queryPluginsFn env
    (es, clientsCountDec c)

/-- Admission-counter operations: a task reserving on entry and a task
releasing on exit. -/
inductive CounterOp
  | inc
  | dec
deriving DecidableEq

/-- Effect of one admission-counter operation on the counter. -/
def counterStep (maxClients clientsCount : Nat) : CounterOp → Nat
  | CounterOp.inc => (clientsCountInc clientsCount maxClients).2
  | CounterOp.dec => clientsCountDec clientsCount

/-- Counter value after a sequence of admission-counter operations. -/
def counterRun (maxClients clientsCount : Nat) : List CounterOp → Nat
  | [] => clientsCount
  | op :: ops => counterRun maxClients (counterStep maxClients clientsCount op) ops

/-- Whether a listener loop iterates again or returns. -/
inductive LoopControl
  | stop
  | again
deriving DecidableEq

/-- One iteration of the udpListener loop (main.go lines 282-297), driven by
the ReadFrom outcome (none on error): an error returns from the loop; a
datagram spawns a client task and iterates. -/
def udpListenerIter (readResult : Option (List Nat)) : LoopControl :=
  match readResult with
  | none => LoopControl.stop
  | some _ => LoopControl.again

/-- One iteration of the tcpListener loop (main.go lines 312-332), driven by
the Accept outcome (none on error): an error continues the loop; a connection
spawns a client task and iterates. -/
def tcpListenerIter (acceptResult : Option Unit) : LoopControl :=
  match acceptResult with
  | none => LoopControl.again
  | some _ => LoopControl.again

/-- Modelled from the Go standard library: the package-level math/rand
generator used by rand.Read is deterministic and the program never seeds it,
so its state at program start is a fixed constant; a linear congruential step
stands in for its concrete recurrence. -/
def mathRandStep (s : Nat) : Nat :=
  (6364136223846793005 * s + 1442695040888963407) % 2 ^ 64

/-- One pseudo-random byte and the following generator state. -/
def mathRandByte (s : Nat) : Nat × Nat :=
  (mathRandStep s / 2 ^ 33 % 256, mathRandStep s)

/-- Reads n pseudo-random bytes, threading the generator state. -/
def mathRandBytes : Nat → Nat → List Nat × Nat
  | 0, s => ([], s)
  | n + 1, s =>
    let b := mathRandByte s
    let rest := mathRandBytes n b.2
    (b.1 :: rest.1, rest.2)

/-- The fixed state of the package-level math/rand generator at program start. -/
def mathRandInitialState : Nat := 1

/-- Keypair generation in StartProxy (main.go lines 184-188): proxySecretKey
is filled by math/rand.Read from the package-level generator, and
proxyPublicKey is derived by curve25519.ScalarBaseMult, kept abstract here.
The per-run OS entropy is passed in to show it is never consulted. -/
def startProxyKeypair (scalarBaseMult : List Nat → List Nat)
    (osEntropy : Nat → Nat) : List Nat × List Nat :=
  let secretKey := (mathRandBytes 32 mathRandInitialState).1
  (secretKey, scalarBaseMult secretKey)

/-! ### Admission-counter lemmas -/

/-- Unfolded form of clientsCountInc on a counter within uint32 range. -/
lemma clientsCountInc_spec (m c : Nat) (hm : m < 2 ^ 32) (hc : c ≤ m) :
    clientsCountInc c m = if m ≤ c then (false, c) else (true, c + 1) := by
  unfold clientsCountInc
  split
  · rfl
  · have hlt : c + 1 < 2 ^ 32 := by omega
    rw [Nat.mod_eq_of_lt hlt]

/-- clientsCountDec computes truncated subtraction of one on uint32 values. -/
lemma clientsCountDec_spec (c : Nat) (hc : c < 2 ^ 32) :
    clientsCountDec c = c - 1 := by
  unfold clientsCountDec clientsCountDecIter
  split
  · omega
  · have h1 : c + 2 ^ 32 - 1 = (c - 1) + 2 ^ 32 := by omega
    simp only [h1, Nat.add_mod_right]
    exact Nat.mod_eq_of_lt (by omega)

/-- One admission-counter operation preserves the cap. -/
lemma counterStep_le (m c : Nat) (hm : m < 2 ^ 32) (hc : c ≤ m) (op : CounterOp) :
    counterStep m c op ≤ m := by
  cases op with
  | inc =>
    show (clientsCountInc c m).2 ≤ m
    rw [clientsCountInc_spec m c hm hc]
    split <;> simp <;> omega
  | dec =>
    show clientsCountDec c ≤ m
    rw [clientsCountDec_spec c (by omega)]
    omega

/-- Any sequence of admission-counter operations preserves the cap. -/
lemma counterRun_le (m : Nat) (hm : m < 2 ^ 32) :
    ∀ (ops : List CounterOp) (c : Nat), c ≤ m → counterRun m c ops ≤ m := by
  intro ops
  induction ops with
  | nil => intro c hc; simpa [counterRun] using hc
  | cons op ops ih =>
    intro c hc
    simp only [counterRun]
    exact ih _ (counterStep_le m c hm hc op)

/-- A UDP client task leaves the counter where it started: a refused
reservation does not touch it, an acquired one is released on exit. -/
lemma udpClientTask_counter (m c : Nat) (hm : m < 2 ^ 32) (hc : c ≤ m)
    (si : Option ServerInfo) (sp : String) (packet : List Nat)
    (qp : List Nat → QueryPluginsResult) (env : UpstreamEnv) :
    (udpClientTask m c si sp packet qp env).2 = c := by
  unfold udpClientTask
  rw [clientsCountInc_spec m c hm hc]
  by_cases h : m ≤ c
  · simp [h]
  · simp [h, clientsCountDec_spec (c + 1) (by omega)]

/-- A TCP client task leaves the counter where it started. -/
lemma tcpClientTask_counter (m c : Nat) (hm : m < 2 ^ 32) (hc : c ≤ m)
    (rr : Option (List Nat)) (si : Option ServerInfo)
    (qp : List Nat → QueryPluginsResult) (env : UpstreamEnv) :
    (tcpClientTask m c rr si qp env).2 = c := by
  unfold tcpClientTask
  rw [clientsCountInc_spec m c hm hc]
  by_cases h : m ≤ c
  · simp [h]
  · simp [h, clientsCountDec_spec (c + 1) (by omega)]

/-! ### Pipeline phase lemmas -/

/-- Membership in the UDP emission tail. -/
lemma emitUDP_mem (x : List Nat) (e : Event) :
    e ∈ emitUDP x ↔
      (e = Event.writeClient x ∨
       e = (if HasTCFlag x then Event.blindAdjust
            else Event.adjust (ResponseOverhead + x.length)) ∨
       e = Event.noticeSuccess) := by
  unfold emitUDP
  simp [List.mem_cons]

/-- Events of the size-policy tail are only failure and success notices,
estimator updates, and client writes. -/
lemma sizePolicy_event_kinds {cp : String} {r : List Nat} {e : Event}
    (h : e ∈ sizePolicyAndEmit cp r) :
    e = Event.noticeFailure ∨ e = Event.noticeSuccess ∨ e = Event.blindAdjust ∨
    (∃ n, e = Event.adjust n) ∨ (∃ b, e = Event.writeClient b) := by
  unfold sizePolicyAndEmit at h
  split at h
  · simp at h
    simp [h]
  · split at h
    · split at h
      · split at h
        · simp at h
        · rw [emitUDP_mem] at h
          rcases h with h | h | h
          · exact Or.inr (Or.inr (Or.inr (Or.inr ⟨_, h⟩)))
          · split at h
            · simp [h]
            · exact Or.inr (Or.inr (Or.inr (Or.inl ⟨_, h⟩)))
          · simp [h]
      · rw [emitUDP_mem] at h
        rcases h with h | h | h
        · exact Or.inr (Or.inr (Or.inr (Or.inr ⟨_, h⟩)))
        · split at h
          · simp [h]
          · exact Or.inr (Or.inr (Or.inr (Or.inl ⟨_, h⟩)))
        · simp [h]
    · split at h
      · simp at h
        simp [h]
      · simp [List.mem_cons] at h
        rcases h with h | h
        · exact Or.inr (Or.inr (Or.inr (Or.inr ⟨_, h⟩)))
        · simp [h]

/-- A write in the size-policy tail pins the response to the policy window and
identifies the written bytes: the response itself on the small-UDP path, its
truncation on the oversized-UDP path, its length-prefixed form on TCP. -/
lemma writeClient_sizePolicy {cp : String} {r b : List Nat}
    (h : Event.writeClient b ∈ sizePolicyAndEmit cp r) :
    MinDNSPacketSize ≤ r.length ∧ r.length ≤ MaxDNSPacketSize ∧
    ((cp = "udp" ∧ r.length ≤ MaxDNSUDPPacketSize ∧ b = r) ∨
     (cp = "udp" ∧ MaxDNSUDPPacketSize < r.length ∧ TruncatedResponse r = some b) ∨
     (cp ≠ "udp" ∧ PrefixWithSize r = some b)) := by
  unfold sizePolicyAndEmit at h
  split at h
  · simp at h
  · rename_i hwin
    push_neg at hwin
    refine ⟨hwin.1, hwin.2, ?_⟩
    split at h
    · rename_i hudp
      split at h
      · rename_i hbig
        split at h
        · simp at h
        · rename_i t ht
          rw [emitUDP_mem] at h
          rcases h with h | h | h
          · injection h with hb
            subst hb
            exact Or.inr (Or.inl ⟨hudp, hbig, ht⟩)
          · split at h <;> simp at h
          · simp at h
      · rename_i hsmall
        push_neg at hsmall
        rw [emitUDP_mem] at h
        rcases h with h | h | h
        · injection h with hb
          subst hb
          exact Or.inl ⟨hudp, hsmall, rfl⟩
        · split at h <;> simp at h
        · simp at h
    · rename_i hudp
      split at h
      · simp at h
      · rename_i pr hp
        simp only [List.mem_cons, List.not_mem_nil, or_false] at h
        rcases h with h | h
        · injection h with hb
          subst hb
          exact Or.inr (Or.inr ⟨hudp, hp⟩)
        · simp at h

/-- An estimator event in the size-policy tail forces a UDP client and comes
with a client write. -/
lemma estimator_sizePolicy_udp {cp : String} {r : List Nat}
    (h : Event.blindAdjust ∈ sizePolicyAndEmit cp r ∨
         ∃ n, Event.adjust n ∈ sizePolicyAndEmit cp r) :
    cp = "udp" ∧ ∃ b, Event.writeClient b ∈ sizePolicyAndEmit cp r := by
  have hmem : ∃ e, (e = Event.blindAdjust ∨ ∃ n, e = Event.adjust n) ∧
      e ∈ sizePolicyAndEmit cp r := by
    rcases h with h | ⟨n, h⟩
    · exact ⟨_, Or.inl rfl, h⟩
    · exact ⟨_, Or.inr ⟨n, rfl⟩, h⟩
  rcases hmem with ⟨e, hkind, h⟩
  unfold sizePolicyAndEmit at h
  split at h
  · simp at h
    rcases hkind with h' | ⟨n, h'⟩ <;> simp [h'] at h
  · split at h
    · rename_i hudp
      refine ⟨hudp, ?_⟩
      split at h
      · split at h
        · simp at h
        · rename_i t ht
          refine ⟨t, ?_⟩
          have hsz : sizePolicyAndEmit cp r = emitUDP t := by
            unfold sizePolicyAndEmit
            rw [if_neg (by assumption), if_pos (by assumption),
              if_pos (by assumption), ht]
          rw [hsz, emitUDP_mem]
          exact Or.inl rfl
      · refine ⟨r, ?_⟩
        have hsz : sizePolicyAndEmit cp r = emitUDP r := by
          unfold sizePolicyAndEmit
          rw [if_neg (by assumption), if_pos (by assumption),
            if_neg (by assumption)]
        rw [hsz, emitUDP_mem]
        exact Or.inl rfl
    · exfalso
      split at h
      · simp at h
        rcases hkind with h' | ⟨n, h'⟩ <;> simp [h'] at h
      · simp [List.mem_cons] at h
        rcases h with h | h <;>
          rcases hkind with h' | ⟨n, h'⟩ <;> simp [h'] at h

/-- A response outside the size-policy window records noticeFailure only. -/
lemma sizePolicy_fail {cp : String} {r : List Nat}
    (hwin : r.length < MinDNSPacketSize ∨ MaxDNSPacketSize < r.length) :
    sizePolicyAndEmit cp r = [Event.noticeFailure] := by
  unfold sizePolicyAndEmit
  rw [if_pos hwin]

/-- A UDP response within the UDP size cap is emitted as-is. -/
lemma sizePolicy_udp_small {r : List Nat}
    (hwin : ¬(r.length < MinDNSPacketSize ∨ MaxDNSPacketSize < r.length))
    (hsmall : ¬ MaxDNSUDPPacketSize < r.length) :
    sizePolicyAndEmit "udp" r = emitUDP r := by
  unfold sizePolicyAndEmit
  rw [if_neg hwin, if_pos rfl, if_neg hsmall]

/-- An oversized UDP response is replaced by its truncated shell. -/
lemma sizePolicy_udp_big {r t : List Nat}
    (hwin : ¬(r.length < MinDNSPacketSize ∨ MaxDNSPacketSize < r.length))
    (hbig : MaxDNSUDPPacketSize < r.length)
    (ht : TruncatedResponse r = some t) :
    sizePolicyAndEmit "udp" r = emitUDP t := by
  unfold sizePolicyAndEmit
  rw [if_neg hwin, if_pos rfl, if_pos hbig, ht]

/-- A failing truncation of an oversized UDP response emits nothing. -/
lemma sizePolicy_udp_big_none {r : List Nat}
    (hwin : ¬(r.length < MinDNSPacketSize ∨ MaxDNSPacketSize < r.length))
    (hbig : MaxDNSUDPPacketSize < r.length)
    (ht : TruncatedResponse r = none) :
    sizePolicyAndEmit "udp" r = [] := by
  unfold sizePolicyAndEmit
  rw [if_neg hwin, if_pos rfl, if_pos hbig, ht]

/-- A TCP response in the window is emitted with its length prefix. -/
lemma sizePolicy_tcp {cp : String} {r pr : List Nat} (hcp : cp ≠ "udp")
    (hwin : ¬(r.length < MinDNSPacketSize ∨ MaxDNSPacketSize < r.length))
    (hp : PrefixWithSize r = some pr) :
    sizePolicyAndEmit cp r = [Event.writeClient pr, Event.noticeSuccess] := by
  unfold sizePolicyAndEmit
  rw [if_neg hwin, if_neg hcp, hp]

/-- A write in the UDP size-policy tail comes with the matching estimator
update: blindAdjust when the written packet carries TC, otherwise adjust fed
with ResponseOverhead plus the written length. -/
lemma writeClient_estimator {r b : List Nat}
    (h : Event.writeClient b ∈ sizePolicyAndEmit "udp" r) :
    (HasTCFlag b = true → Event.blindAdjust ∈ sizePolicyAndEmit "udp" r) ∧
    (HasTCFlag b = false →
       Event.adjust (ResponseOverhead + b.length) ∈ sizePolicyAndEmit "udp" r) := by
  by_cases hwin : r.length < MinDNSPacketSize ∨ MaxDNSPacketSize < r.length
  · rw [sizePolicy_fail hwin] at h
    simp at h
  · by_cases hbig : MaxDNSUDPPacketSize < r.length
    · rcases ht : TruncatedResponse r with _ | t
      · rw [sizePolicy_udp_big_none hwin hbig ht] at h
        simp at h
      · rw [sizePolicy_udp_big hwin hbig ht] at h
        rw [emitUDP_mem] at h
        rcases h with h | h | h
        · injection h with hb
          subst hb
          constructor
          · intro htc
            rw [sizePolicy_udp_big hwin hbig ht, emitUDP_mem]
            simp [htc]
          · intro htc
            rw [sizePolicy_udp_big hwin hbig ht, emitUDP_mem]
            simp [htc]
        · split at h <;> simp at h
        · simp at h
    · rw [sizePolicy_udp_small hwin hbig] at h
      rw [emitUDP_mem] at h
      rcases h with h | h | h
      · injection h with hb
        subst hb
        constructor
        · intro htc
          rw [sizePolicy_udp_small hwin hbig, emitUDP_mem]
          simp [htc]
        · intro htc
          rw [sizePolicy_udp_small hwin hbig, emitUDP_mem]
          simp [htc]
      · split at h <;> simp at h
      · simp at h

/-- Events of the upstream exchange: only noticeBegin, the network contacts
and noticeFailure — never a client write, a success notice, an estimator
update or a plugin event. -/
lemma exchangePhase_event_kinds {si : ServerInfo} {sp : String}
    {env : UpstreamEnv} {e : Event} (he : e ∈ (exchangePhase si sp env).1) :
    e = Event.noticeBegin ∨ e = Event.exchangeUDP ∨ e = Event.exchangeTCP ∨
    e = Event.dohPost ∨ e = Event.noticeFailure := by
  obtain ⟨p⟩ := si
  obtain ⟨enc, exu, ext, doh, rp⟩ := env
  cases p
  · cases enc
    · simp [exchangePhase] at he
    · by_cases hsp : sp = "udp"
      · cases exu <;> simp [exchangePhase, hsp] at he <;> tauto
      · cases ext <;> simp [exchangePhase, hsp] at he <;> tauto
  · cases doh
    · simp [exchangePhase] at he
      tauto
    · rename_i pr
      obtain ⟨st, body⟩ := pr
      by_cases hst : st < 200 ∨ 299 < st
      · simp [exchangePhase, hst] at he
        tauto
      · cases body <;> simp [exchangePhase, hst] at he <;> tauto

/-- Unfolded form of processIncomingQuery once the entry guard passes. -/
lemma processIncomingQuery_eq (si : ServerInfo) (cp sp : String)
    (query : List Nat) (qp : List Nat → QueryPluginsResult) (env : UpstreamEnv)
    (hq : ¬ query.length < MinDNSPacketSize) :
    processIncomingQuery (some si) cp sp query qp env =
      Event.queryPlugins ::
        match synthStep (qp query) with
        | none => []
        | some response0 =>
          if response0.length = 0 then
            match exchangePhase si sp env with
            | (es, none) => es
            | (es, some resp) =>
              es ++ Event.responsePlugins ::
                sizePolicyAndEmit cp (env.responsePlugins resp)
          else sizePolicyAndEmit cp response0 := by
  unfold processIncomingQuery
  rw [if_neg hq]

/-- Unfolded form of the pipeline-response observer once the guard passes. -/
lemma pipelineResponse_eq (si : ServerInfo) (sp : String) (query : List Nat)
    (qp : List Nat → QueryPluginsResult) (env : UpstreamEnv)
    (hq : ¬ query.length < MinDNSPacketSize) :
    pipelineResponse (some si) sp query qp env =
      match synthStep (qp query) with
      | none => none
      | some response0 =>
        if response0.length = 0 then
          match (exchangePhase si sp env).2 with
          | none => none
          | some resp => some (env.responsePlugins resp)
        else some response0 := by
  unfold pipelineResponse
  rw [if_neg hq]

/-- Every event of a query task is the query-plugin event, an upstream
exchange event, the response-plugin event, or an event of the size-policy
tail applied to the pipeline response. -/
lemma mem_processIncomingQuery {si : ServerInfo} {cp sp : String}
    {query : List Nat} {qp : List Nat → QueryPluginsResult} {env : UpstreamEnv}
    {e : Event} (he : e ∈ processIncomingQuery (some si) cp sp query qp env) :
    e = Event.queryPlugins ∨
    e ∈ (exchangePhase si sp env).1 ∨
    e = Event.responsePlugins ∨
    ∃ r, pipelineResponse (some si) sp query qp env = some r ∧
         e ∈ sizePolicyAndEmit cp r := by
  by_cases hq : query.length < MinDNSPacketSize
  · unfold processIncomingQuery at he
    rw [if_pos hq] at he
    simp at he
  · rw [processIncomingQuery_eq si cp sp query qp env hq] at he
    rw [pipelineResponse_eq si sp query qp env hq]
    rcases hs : synthStep (qp query) with _ | r0 <;> rw [hs] at he
    · simp at he
      exact Or.inl he
    · by_cases h0 : r0.length = 0 <;> simp only [h0, if_pos, if_neg, if_true,
        if_false, reduceIte] at he ⊢
      · rcases hex : exchangePhase si sp env with ⟨es, res⟩
        rw [hex] at he
        cases res with
        | none =>
          dsimp only at he ⊢
          rcases List.mem_cons.mp he with h | h
          · exact Or.inl h
          · exact Or.inr (Or.inl h)
        | some resp =>
          dsimp only at he ⊢
          rcases List.mem_cons.mp he with h | h
          · exact Or.inl h
          · rcases List.mem_append.mp h with h | h
            · exact Or.inr (Or.inl h)
            · rcases List.mem_cons.mp h with h | h
              · exact Or.inr (Or.inr (Or.inl h))
              · exact Or.inr (Or.inr (Or.inr ⟨_, rfl, h⟩))
      · rcases List.mem_cons.mp he with h | h
        · exact Or.inl h
        · exact Or.inr (Or.inr (Or.inr ⟨r0, rfl, h⟩))

/-- Conversely, every event of the size-policy tail applied to the pipeline
response occurs in the query task. -/
lemma sizePolicy_sub_processIncomingQuery {si : ServerInfo} {cp sp : String}
    {query : List Nat} {qp : List Nat → QueryPluginsResult} {env : UpstreamEnv}
    {r : List Nat} {e : Event}
    (hr : pipelineResponse (some si) sp query qp env = some r)
    (he : e ∈ sizePolicyAndEmit cp r) :
    e ∈ processIncomingQuery (some si) cp sp query qp env := by
  by_cases hq : query.length < MinDNSPacketSize
  · unfold pipelineResponse at hr
    rw [if_pos hq] at hr
    simp at hr
  · rw [pipelineResponse_eq si sp query qp env hq] at hr
    rw [processIncomingQuery_eq si cp sp query qp env hq]
    rcases hs : synthStep (qp query) with _ | r0 <;> rw [hs] at hr
    · simp at hr
    · by_cases h0 : r0.length = 0 <;> simp only [h0, if_pos, if_neg, if_true,
        if_false, reduceIte] at hr ⊢
      · rcases hex : exchangePhase si sp env with ⟨es, res⟩
        rw [hex] at hr
        cases res with
        | none => simp at hr
        | some resp =>
          dsimp only at hr ⊢
          simp only [Option.some.injEq] at hr
          subst hr
          refine List.mem_cons_of_mem _ (List.mem_append.mpr (Or.inr ?_))
          exact List.mem_cons_of_mem _ he
      · simp only [Option.some.injEq] at hr
        subst hr
        exact List.mem_cons_of_mem _ he

/-! ### Truncated-shell properties -/

/-- The truncated shell is never longer than the UDP size cap: a 12-byte
header plus a question name of at most 255 bytes plus 4 bytes of type and
class. -/
lemma TruncatedResponse_length {p t : List Nat}
    (h : TruncatedResponse p = some t) : t.length ≤ MaxDNSUDPPacketSize := by
  unfold TruncatedResponse at h
  split at h
  · simp at h
  · rename_i nameEnd hne
    split at h
    · rename_i hguard
      obtain ⟨hqd, hname, hbound⟩ := hguard
      simp only [Option.some.injEq] at h
      subst h
      simp only [List.length_cons, List.length_take, List.length_drop,
        MaxDNSUDPPacketSize]
      omega
    · simp at h

/-- The truncated shell carries the TC flag. -/
lemma TruncatedResponse_TC {p t : List Nat}
    (h : TruncatedResponse p = some t) : HasTCFlag t = true := by
  unfold TruncatedResponse at h
  split at h
  · simp at h
  · split at h
    · simp only [Option.some.injEq] at h
      subst h
      unfold HasTCFlag
      simp only [List.getElem?_cons_succ, List.getElem?_cons_zero]
      rw [beq_iff_eq]
      unfold setTCByte
      split
      · assumption
      · omega
    · simp at h

/-- The truncated shell has zero answer records. -/
lemma TruncatedResponse_ancount {p t : List Nat}
    (h : TruncatedResponse p = some t) : ancount t = 0 := by
  unfold TruncatedResponse at h
  split at h
  · simp at h
  · split at h
    · simp only [Option.some.injEq] at h
      subst h
      unfold ancount byteAt
      simp [List.getElem?_cons_succ, List.getElem?_cons_zero]
    · simp at h

/-- Length of the modelled pseudo-random byte read. -/
lemma mathRandBytes_length (n s : Nat) : (mathRandBytes n s).1.length = n := by
  induction n generalizing s with
  | zero => rfl
  | succ n ih => simp [mathRandBytes, ih]

/-! ### Claim theorems -/

/-- C1: the in-flight client counter never exceeds maxClients. clientsCountInc
installs count+1 by compare-and-swap and accepts exactly when the pre-increment
value is strictly below maxClients, leaves the counter unchanged when it
refuses at the cap, any interleaving of reservation and release operations
keeps the counter at or below maxClients, and every accepted UDP or TCP task
that got a reservation releases it on exit, leaving the counter where it
started. -/
theorem c1_admission_counter_bounded (maxClients c : Nat)
    (hm : maxClients < 2 ^ 32) (hc : c ≤ maxClients) :
    ((clientsCountInc c maxClients).1 = true ↔ c < maxClients) ∧
    ((clientsCountInc c maxClients).1 = false →
       (clientsCountInc c maxClients).2 = c) ∧
    ((clientsCountInc c maxClients).1 = true →
       (clientsCountInc c maxClients).2 = c + 1) ∧
    (∀ ops : List CounterOp, counterRun maxClients c ops ≤ maxClients) ∧
    (∀ si sp packet qp env,
       (udpClientTask maxClients c si sp packet qp env).2 = c) ∧
    (∀ rr si qp env, (tcpClientTask maxClients c rr si qp env).2 = c) := by
  refine ⟨?_, ?_, ?_, fun ops => counterRun_le maxClients hm ops c hc,
    fun si sp packet qp env => udpClientTask_counter maxClients c hm hc si sp packet qp env,
    fun rr si qp env => tcpClientTask_counter maxClients c hm hc rr si qp env⟩
  · rw [clientsCountInc_spec maxClients c hm hc]
    by_cases h : maxClients ≤ c
    · simp [h]
    · simp [h]
      omega
  · rw [clientsCountInc_spec maxClients c hm hc]
    by_cases h : maxClients ≤ c <;> simp [h]
  · rw [clientsCountInc_spec maxClients c hm hc]
    by_cases h : maxClients ≤ c <;> simp [h]

/-- Witness for C1 at maxClients 8 and counter 3. -/
theorem c1_admission_counter_bounded_witness :
    (clientsCountInc 3 8).1 = true ∧
    counterRun 8 3 [CounterOp.inc, CounterOp.inc, CounterOp.dec] ≤ 8 ∧
    (udpClientTask 8 3 none "udp" [] (fun q => ⟨q, PluginsAction.forward, none⟩)
       ⟨none, none, none, none, fun r => r⟩).2 = 3 := by
  have h := c1_admission_counter_bounded 8 3 (by norm_num) (by norm_num)
  exact ⟨h.1.mpr (by norm_num), h.2.2.2.1 _, h.2.2.2.2.1 _ _ _ _ _⟩

/-- C3: StartProxy derives the X25519 keypair from the unseeded package-level
math/rand generator, so the generated keypair is a deterministic function of
program start: two runs with arbitrary — even different — OS entropy produce
identical 32-byte secret keys and identical public keys. -/
theorem c3_keypair_deterministic (scalarBaseMult : List Nat → List Nat)
    (entropy1 entropy2 : Nat → Nat) :
    startProxyKeypair scalarBaseMult entropy1 =
      startProxyKeypair scalarBaseMult entropy2 ∧
    (startProxyKeypair scalarBaseMult entropy1).1.length = 32 := by
  constructor
  · rfl
  · exact mathRandBytes_length 32 mathRandInitialState

/-- C5: clientsCountDec is decrement-or-no-op and terminating: its retry loop
breaks on the first iteration, at zero it leaves the counter unchanged without
attempting the compare-and-swap, and on a positive counter it installs exactly
count-1, so the uint32 counter never wraps below zero. -/
theorem c5_clientsCountDec_no_underflow (c : Nat) (hc : c < 2 ^ 32) :
    (clientsCountDecIter c).2 = true ∧
    (c = 0 → clientsCountDec c = c) ∧
    (0 < c → clientsCountDec c = c - 1) ∧
    clientsCountDec c ≤ c := by
  refine ⟨?_, ?_, ?_, ?_⟩
  · unfold clientsCountDecIter
    split <;> rfl
  · intro h
    subst h
    rfl
  · intro h
    rw [clientsCountDec_spec c hc]
  · rw [clientsCountDec_spec c hc]
    omega

/-- Witness for C5 at counter values 0 and 5. -/
theorem c5_clientsCountDec_no_underflow_witness :
    clientsCountDec 0 = 0 ∧ clientsCountDec 5 = 4 := by
  exact ⟨(c5_clientsCountDec_no_underflow 0 (by norm_num)).2.1 rfl,
    (c5_clientsCountDec_no_underflow 5 (by norm_num)).2.2.1 (by norm_num)⟩

/-- C8: a query shorter than MinDNSPacketSize or with no server available
produces the empty event trace — no reply, no plugin invocation, no
server-health update; and the TCP task drops length-prefixed packets shorter
than MinDNSPacketSize before entering the pipeline, whatever the admission
counter. -/
theorem c8_short_query_dropped (serverInfo : Option ServerInfo)
    (cp sp : String) (query : List Nat)
    (qp : List Nat → QueryPluginsResult) (env : UpstreamEnv)
    (m c : Nat) (packet : List Nat) (serverInfo2 : Option ServerInfo)
    (qp2 : List Nat → QueryPluginsResult) (env2 : UpstreamEnv)
    (h : query.length < MinDNSPacketSize ∨ serverInfo = none)
    (hp : packet.length < MinDNSPacketSize) :
    processIncomingQuery serverInfo cp sp query qp env = [] ∧
    (tcpClientTask m c (some packet) serverInfo2 qp2 env2).1 = [] := by
  constructor
  · unfold processIncomingQuery
    rcases h with h | h
    · rw [if_pos h]
    · subst h
      split <;> rfl
  · unfold tcpClientTask
    rcases hinc : clientsCountInc c m with ⟨b, c'⟩
    cases b
    · rfl
    · dsimp only
      rw [if_pos hp]

/-- Witness for C8: a 5-byte query and a 5-byte TCP packet are both dropped. -/
theorem c8_short_query_dropped_witness :
    processIncomingQuery (some ⟨StampProtoType.dnscrypt⟩) "udp" "udp"
        (List.replicate 5 0) (fun q => ⟨q, PluginsAction.forward, none⟩)
        ⟨none, none, none, none, fun r => r⟩ = [] ∧
    (tcpClientTask 8 0 (some (List.replicate 5 0))
        (some ⟨StampProtoType.dnscrypt⟩)
        (fun q => ⟨q, PluginsAction.forward, none⟩)
        ⟨none, none, none, none, fun r => r⟩).1 = [] := by
  exact c8_short_query_dropped (some ⟨StampProtoType.dnscrypt⟩) "udp" "udp"
    (List.replicate 5 0) (fun q => ⟨q, PluginsAction.forward, none⟩)
    ⟨none, none, none, none, fun r => r⟩ 8 0 (List.replicate 5 0)
    (some ⟨StampProtoType.dnscrypt⟩) (fun q => ⟨q, PluginsAction.forward, none⟩)
    ⟨none, none, none, none, fun r => r⟩ (Or.inl (by decide)) (by decide)

/-- C10 counterexample: after the accept call fails on a closed socket, the
TCP accept loop does not exit — it iterates again, contradicting the claim
that both listener loops exit on error. -/
theorem c10_counterexample : tcpListenerIter none ≠ LoopControl.stop := by
  decide

/-- C10 amended: once the blocking call returns an error, the UDP read loop
exits; the TCP accept loop instead continues with the next iteration, so only
the UDP listener terminates when its socket is closed. -/
theorem c10_udp_stops_tcp_continues :
    udpListenerIter none = LoopControl.stop ∧
    tcpListenerIter none = LoopControl.again ∧
    (∀ packet, udpListenerIter (some packet) = LoopControl.again) ∧
    (∀ conn, tcpListenerIter (some conn) = LoopControl.again) := by
  exact ⟨rfl, rfl, fun _ => rfl, fun _ => rfl⟩

/-- With a Forward action the synthesized-response block passes through an
empty response, so the upstream exchange is taken. -/
lemma synthStep_forward {r : QueryPluginsResult}
    (h : r.action = PluginsAction.forward) : synthStep r = some [] := by
  unfold synthStep
  rw [h]
  simp

/-- With a non-Forward action and a packable synthesized response, the block
returns the packed bytes, or drops them on a Drop action. -/
lemma synthStep_synth {r : QueryPluginsResult} {b : List Nat}
    (ha : r.action ≠ PluginsAction.forward)
    (hs : r.synthPack = some (some b)) :
    synthStep r = if r.action = PluginsAction.drop then none else some b := by
  unfold synthStep
  rw [if_pos ha, hs]

/-- A forwarded query whose upstream exchange yields no response produces
exactly the query-plugin event followed by the exchange events. -/
lemma process_forward_exchange_none (si : ServerInfo) (cp sp : String)
    (query : List Nat) (qp : List Nat → QueryPluginsResult) (env : UpstreamEnv)
    (hq : ¬ query.length < MinDNSPacketSize)
    (ha : (qp query).action = PluginsAction.forward)
    (hex : (exchangePhase si sp env).2 = none) :
    processIncomingQuery (some si) cp sp query qp env =
      Event.queryPlugins :: (exchangePhase si sp env).1 := by
  rw [processIncomingQuery_eq si cp sp query qp env hq, synthStep_forward ha]
  dsimp only [List.length_nil]
  rw [if_pos rfl]
  rcases hx : exchangePhase si sp env with ⟨es, res⟩
  rw [hx] at hex
  dsimp only at hex ⊢
  subst hex
  rfl

/-- A forwarded query with a successful upstream exchange produces the
query-plugin event, the exchange events, the response-plugin event, and the
size-policy tail on the plugin-transformed response. -/
lemma process_forward_exchange_some (si : ServerInfo) (cp sp : String)
    (query : List Nat) (qp : List Nat → QueryPluginsResult) (env : UpstreamEnv)
    (resp : List Nat)
    (hq : ¬ query.length < MinDNSPacketSize)
    (ha : (qp query).action = PluginsAction.forward)
    (hex : (exchangePhase si sp env).2 = some resp) :
    processIncomingQuery (some si) cp sp query qp env =
      Event.queryPlugins :: (exchangePhase si sp env).1 ++
        Event.responsePlugins ::
          sizePolicyAndEmit cp (env.responsePlugins resp) := by
  rw [processIncomingQuery_eq si cp sp query qp env hq, synthStep_forward ha]
  dsimp only [List.length_nil]
  rw [if_pos rfl]
  rcases hx : exchangePhase si sp env with ⟨es, res⟩
  rw [hx] at hex
  dsimp only at hex ⊢
  subst hex
  rfl

/-- C2 counterexample: a forwarded DNSCrypt query whose encryption fails
returns silently — the trace is just the query-plugin event, with no
noticeFailure — although the claim demands a noticeFailure for every failed
upstream exchange, encryption errors included. -/
theorem c2_counterexample :
    Event.noticeFailure ∉
      processIncomingQuery (some ⟨StampProtoType.dnscrypt⟩) "udp" "udp"
        (List.replicate 17 0) (fun q => ⟨q, PluginsAction.forward, none⟩)
        ⟨none, none, none, none, fun r => r⟩ := by
  decide

/-- C2 amended: among upstream failures only a failed DNSCrypt network
exchange (after a successful encryption) records noticeFailure; an encryption
error returns with no events beyond the query plugins, and every DoH failure
— request error or absent response, non-2xx status, or body read error —
returns right after the POST. In all of these cases nothing is written to the
client. -/
theorem c2_upstream_failure_traces (si : ServerInfo) (cp sp : String)
    (query : List Nat) (qp : List Nat → QueryPluginsResult) (env : UpstreamEnv)
    (hq : ¬ query.length < MinDNSPacketSize)
    (ha : (qp query).action = PluginsAction.forward) :
    (si.Proto = StampProtoType.dnscrypt → env.encrypt = none →
       processIncomingQuery (some si) cp sp query qp env =
         [Event.queryPlugins]) ∧
    (si.Proto = StampProtoType.dnscrypt → sp = "udp" →
       env.encrypt = some () → env.exchangeUDP = none →
       processIncomingQuery (some si) cp sp query qp env =
         [Event.queryPlugins, Event.noticeBegin, Event.exchangeUDP,
          Event.noticeFailure]) ∧
    (si.Proto = StampProtoType.dnscrypt → sp ≠ "udp" →
       env.encrypt = some () → env.exchangeTCP = none →
       processIncomingQuery (some si) cp sp query qp env =
         [Event.queryPlugins, Event.noticeBegin, Event.exchangeTCP,
          Event.noticeFailure]) ∧
    (si.Proto = StampProtoType.doh → env.doh = none →
       processIncomingQuery (some si) cp sp query qp env =
         [Event.queryPlugins, Event.dohPost]) ∧
    (∀ st body, si.Proto = StampProtoType.doh → env.doh = some (st, body) →
       (st < 200 ∨ 299 < st) →
       processIncomingQuery (some si) cp sp query qp env =
         [Event.queryPlugins, Event.dohPost]) ∧
    (∀ st, si.Proto = StampProtoType.doh → env.doh = some (st, none) →
       ¬(st < 200 ∨ 299 < st) →
       processIncomingQuery (some si) cp sp query qp env =
         [Event.queryPlugins, Event.dohPost]) := by
  refine ⟨?_, ?_, ?_, ?_, ?_, ?_⟩
  · intro hp he
    have hx : exchangePhase si sp env = ([], none) := by
      unfold exchangePhase
      rw [hp, he]
    rw [process_forward_exchange_none si cp sp query qp env hq ha (by rw [hx]),
      hx]
  · intro hp hsp he hxu
    have hx : exchangePhase si sp env =
        ([Event.noticeBegin, Event.exchangeUDP, Event.noticeFailure], none) := by
      unfold exchangePhase
      rw [hp, he]
      dsimp only
      rw [if_pos hsp, hxu]
    rw [process_forward_exchange_none si cp sp query qp env hq ha (by rw [hx]),
      hx]
  · intro hp hsp he hxt
    have hx : exchangePhase si sp env =
        ([Event.noticeBegin, Event.exchangeTCP, Event.noticeFailure], none) := by
      unfold exchangePhase
      rw [hp, he]
      dsimp only
      rw [if_neg hsp, hxt]
    rw [process_forward_exchange_none si cp sp query qp env hq ha (by rw [hx]),
      hx]
  · intro hp hd
    have hx : exchangePhase si sp env = ([Event.dohPost], none) := by
      unfold exchangePhase
      rw [hp, hd]
    rw [process_forward_exchange_none si cp sp query qp env hq ha (by rw [hx]),
      hx]
  · intro st body hp hd hst
    have hx : exchangePhase si sp env = ([Event.dohPost], none) := by
      unfold exchangePhase
      rw [hp, hd]
      dsimp only
      rw [if_pos hst]
    rw [process_forward_exchange_none si cp sp query qp env hq ha (by rw [hx]),
      hx]
  · intro st hp hd hst
    have hx : exchangePhase si sp env = ([Event.dohPost], none) := by
      unfold exchangePhase
      rw [hp, hd]
      dsimp only
      rw [if_neg hst]
    rw [process_forward_exchange_none si cp sp query qp env hq ha (by rw [hx]),
      hx]

/-- Witness for the amended C2: a concrete DNSCrypt UDP exchange failure
records noticeFailure and writes nothing, and a concrete DoH failure is
silent. -/
theorem c2_upstream_failure_traces_witness :
    processIncomingQuery (some ⟨StampProtoType.dnscrypt⟩) "udp" "udp"
        (List.replicate 17 0) (fun q => ⟨q, PluginsAction.forward, none⟩)
        ⟨some (), none, none, none, fun r => r⟩ =
      [Event.queryPlugins, Event.noticeBegin, Event.exchangeUDP,
       Event.noticeFailure] ∧
    processIncomingQuery (some ⟨StampProtoType.doh⟩) "udp" "udp"
        (List.replicate 17 0) (fun q => ⟨q, PluginsAction.forward, none⟩)
        ⟨none, none, none, some (500, none), fun r => r⟩ =
      [Event.queryPlugins, Event.dohPost] := by
  constructor
  · exact (c2_upstream_failure_traces ⟨StampProtoType.dnscrypt⟩ "udp" "udp"
      (List.replicate 17 0) (fun q => ⟨q, PluginsAction.forward, none⟩)
      ⟨some (), none, none, none, fun r => r⟩ (by decide) rfl).2.1
      rfl rfl rfl rfl
  · exact (c2_upstream_failure_traces ⟨StampProtoType.doh⟩ "udp" "udp"
      (List.replicate 17 0) (fun q => ⟨q, PluginsAction.forward, none⟩)
      ⟨none, none, none, some (500, none), fun r => r⟩ (by decide) rfl).2.2.2.2.1
      500 none rfl rfl (by norm_num)

/-- The size-policy tail contains no upstream-contact or plugin events. -/
lemma sizePolicy_no_upstream {cp : String} {r : List Nat} :
    Event.noticeBegin ∉ sizePolicyAndEmit cp r ∧
    Event.exchangeUDP ∉ sizePolicyAndEmit cp r ∧
    Event.exchangeTCP ∉ sizePolicyAndEmit cp r ∧
    Event.dohPost ∉ sizePolicyAndEmit cp r ∧
    Event.responsePlugins ∉ sizePolicyAndEmit cp r := by
  refine ⟨?_, ?_, ?_, ?_, ?_⟩ <;> intro h <;>
    rcases sizePolicy_event_kinds h with h' | h' | h' | ⟨n, h'⟩ | ⟨bb, h'⟩ <;>
    simp at h'

/-- C6: when the query plugins return a non-Forward action together with a
synthesized response, no upstream contact happens — no noticeBegin, no
DNSCrypt exchange, no DoH post — the response plugins are skipped, and every
packet written to the client is composed from the synthesized answer: the
packed bytes themselves, their truncated shell, or their length-prefixed
form. -/
theorem c6_synth_skips_upstream (si : ServerInfo) (cp sp : String)
    (query : List Nat) (qp : List Nat → QueryPluginsResult) (env : UpstreamEnv)
    (b : List Nat)
    (hq : ¬ query.length < MinDNSPacketSize)
    (ha : (qp query).action ≠ PluginsAction.forward)
    (hs : (qp query).synthPack = some (some b))
    (hb : b ≠ []) :
    Event.noticeBegin ∉ processIncomingQuery (some si) cp sp query qp env ∧
    Event.exchangeUDP ∉ processIncomingQuery (some si) cp sp query qp env ∧
    Event.exchangeTCP ∉ processIncomingQuery (some si) cp sp query qp env ∧
    Event.dohPost ∉ processIncomingQuery (some si) cp sp query qp env ∧
    Event.responsePlugins ∉ processIncomingQuery (some si) cp sp query qp env ∧
    ∀ bb, Event.writeClient bb ∈ processIncomingQuery (some si) cp sp query qp env →
      bb = b ∨ TruncatedResponse b = some bb ∨ PrefixWithSize b = some bb := by
  have hss := synthStep_synth ha hs
  by_cases hd : (qp query).action = PluginsAction.drop
  · rw [if_pos hd] at hss
    have htr : processIncomingQuery (some si) cp sp query qp env =
        [Event.queryPlugins] := by
      rw [processIncomingQuery_eq si cp sp query qp env hq, hss]
    rw [htr]
    refine ⟨by simp, by simp, by simp, by simp, by simp, ?_⟩
    intro bb hbb
    simp at hbb
  · rw [if_neg hd] at hss
    have htr : processIncomingQuery (some si) cp sp query qp env =
        Event.queryPlugins :: sizePolicyAndEmit cp b := by
      rw [processIncomingQuery_eq si cp sp query qp env hq, hss]
      dsimp only
      rw [if_neg (by simpa using hb)]
    rw [htr]
    refine ⟨?_, ?_, ?_, ?_, ?_, ?_⟩
    · intro h
      rcases List.mem_cons.mp h with h | h
      · simp at h
      · exact sizePolicy_no_upstream.1 h
    · intro h
      rcases List.mem_cons.mp h with h | h
      · simp at h
      · exact sizePolicy_no_upstream.2.1 h
    · intro h
      rcases List.mem_cons.mp h with h | h
      · simp at h
      · exact sizePolicy_no_upstream.2.2.1 h
    · intro h
      rcases List.mem_cons.mp h with h | h
      · simp at h
      · exact sizePolicy_no_upstream.2.2.2.1 h
    · intro h
      rcases List.mem_cons.mp h with h | h
      · simp at h
      · exact sizePolicy_no_upstream.2.2.2.2 h
    · intro bb hbb
      rcases List.mem_cons.mp hbb with h | h
      · simp at h
      · rcases (writeClient_sizePolicy h).2.2 with ⟨_, _, h'⟩ | ⟨_, _, h'⟩ | ⟨_, h'⟩
        · exact Or.inl h'
        · exact Or.inr (Or.inl h')
        · exact Or.inr (Or.inr h')

/-- Witness for C6: a dropped-by-synthesis query writes only the synthesized
packet. -/
theorem c6_synth_skips_upstream_witness :
    Event.noticeBegin ∉
      processIncomingQuery (some ⟨StampProtoType.dnscrypt⟩) "udp" "udp"
        (List.replicate 17 0)
        (fun q => ⟨q, PluginsAction.synthesize, some (some (List.replicate 20 1))⟩)
        ⟨none, none, none, none, fun r => r⟩ := by
  exact (c6_synth_skips_upstream ⟨StampProtoType.dnscrypt⟩ "udp" "udp"
    (List.replicate 17 0)
    (fun q => ⟨q, PluginsAction.synthesize, some (some (List.replicate 20 1))⟩)
    ⟨none, none, none, none, fun r => r⟩ (List.replicate 20 1)
    (by decide) (by decide) rfl (by decide)).1

/-- C7: a response obtained from the upstream exchange that lies outside
[MinDNSPacketSize, MaxDNSPacketSize] after response plugins records
noticeFailure and nothing is emitted to the client — no write and no success
notice. -/
theorem c7_out_of_range_response_failure (si : ServerInfo) (cp sp : String)
    (query : List Nat) (qp : List Nat → QueryPluginsResult) (env : UpstreamEnv)
    (resp : List Nat)
    (hq : ¬ query.length < MinDNSPacketSize)
    (ha : (qp query).action = PluginsAction.forward)
    (hx : (exchangePhase si sp env).2 = some resp)
    (hout : (env.responsePlugins resp).length < MinDNSPacketSize ∨
            MaxDNSPacketSize < (env.responsePlugins resp).length) :
    Event.noticeFailure ∈ processIncomingQuery (some si) cp sp query qp env ∧
    Event.noticeSuccess ∉ processIncomingQuery (some si) cp sp query qp env ∧
    ∀ b, Event.writeClient b ∉ processIncomingQuery (some si) cp sp query qp env := by
  rw [process_forward_exchange_some si cp sp query qp env resp hq ha hx,
    sizePolicy_fail hout]
  refine ⟨?_, ?_, ?_⟩
  · simp
  · intro h
    rcases List.mem_cons.mp h with h | h
    · simp at h
    · rcases List.mem_append.mp h with h | h
      · rcases exchangePhase_event_kinds h with h' | h' | h' | h' | h' <;>
          simp at h'
      · simp [List.mem_cons] at h
  · intro b h
    rcases List.mem_cons.mp h with h | h
    · simp at h
    · rcases List.mem_append.mp h with h | h
      · rcases exchangePhase_event_kinds h with h' | h' | h' | h' | h' <;>
          simp at h'
      · simp [List.mem_cons] at h

/-- Witness for C7: a concrete DNSCrypt exchange returning a 5-byte reply
records noticeFailure. -/
theorem c7_out_of_range_response_failure_witness :
    Event.noticeFailure ∈
      processIncomingQuery (some ⟨StampProtoType.dnscrypt⟩) "udp" "udp"
        (List.replicate 17 0) (fun q => ⟨q, PluginsAction.forward, none⟩)
        ⟨some (), some (List.replicate 5 0), none, none, fun r => r⟩ := by
  exact (c7_out_of_range_response_failure ⟨StampProtoType.dnscrypt⟩ "udp" "udp"
    (List.replicate 17 0) (fun q => ⟨q, PluginsAction.forward, none⟩)
    ⟨some (), some (List.replicate 5 0), none, none, fun r => r⟩
    (List.replicate 5 0) (by decide) rfl rfl (by decide)).1

/-- C4: every packet written to a UDP client fits in MaxDNSUDPPacketSize, and
whenever the pipeline response exceeded MaxDNSUDPPacketSize the written packet
is its truncated shell — TC flag set, zero answer records. -/
theorem c4_udp_response_bounded (serverInfo : Option ServerInfo) (sp : String)
    (query : List Nat) (qp : List Nat → QueryPluginsResult) (env : UpstreamEnv)
    (r b : List Nat)
    (hr : pipelineResponse serverInfo sp query qp env = some r)
    (hb : Event.writeClient b ∈
            processIncomingQuery serverInfo "udp" sp query qp env) :
    b.length ≤ MaxDNSUDPPacketSize ∧
    (MaxDNSUDPPacketSize < r.length →
       TruncatedResponse r = some b ∧ HasTCFlag b = true ∧ ancount b = 0) := by
  cases serverInfo with
  | none =>
    exfalso
    unfold processIncomingQuery at hb
    split at hb
    · simp at hb
    · simp at hb
  | some si =>
    rcases mem_processIncomingQuery hb with h | h | h | ⟨r', hr', hmem⟩
    · simp at h
    · rcases exchangePhase_event_kinds h with h' | h' | h' | h' | h' <;>
        simp at h'
    · simp at h
    · rw [hr] at hr'
      injection hr' with hrr
      subst hrr
      rcases writeClient_sizePolicy hmem with ⟨hmin, hmax, hcase⟩
      rcases hcase with ⟨_, hsmall, rfl⟩ | ⟨_, hbig, ht⟩ | ⟨hne, _⟩
      · exact ⟨hsmall, fun hbig => absurd hbig (not_lt.mpr hsmall)⟩
      · exact ⟨TruncatedResponse_length ht, fun _ =>
          ⟨ht, TruncatedResponse_TC ht, TruncatedResponse_ancount ht⟩⟩
      · exact absurd rfl hne

/-- Witness for C4: a concrete synthesized 20-byte response is written to the
UDP client within the cap. -/
theorem c4_udp_response_bounded_witness :
    (List.replicate 20 1).length ≤ MaxDNSUDPPacketSize := by
  exact (c4_udp_response_bounded (some ⟨StampProtoType.dnscrypt⟩) "udp"
    (List.replicate 17 0)
    (fun q => ⟨q, PluginsAction.synthesize, some (some (List.replicate 20 1))⟩)
    ⟨none, none, none, none, fun r => r⟩ (List.replicate 20 1)
    (List.replicate 20 1) (by decide) (by decide)).1

/-- An estimator event anywhere in a query task forces a UDP client. -/
lemma estimator_mem_process {serverInfo : Option ServerInfo} {cp sp : String}
    {query : List Nat} {qp : List Nat → QueryPluginsResult} {env : UpstreamEnv}
    {e : Event}
    (hkind : e = Event.blindAdjust ∨ ∃ n, e = Event.adjust n)
    (he : e ∈ processIncomingQuery serverInfo cp sp query qp env) :
    cp = "udp" := by
  cases serverInfo with
  | none =>
    exfalso
    unfold processIncomingQuery at he
    split at he
    · simp at he
    · simp at he
  | some si =>
    rcases mem_processIncomingQuery he with h | h | h | ⟨r, hr, hmem⟩
    · rcases hkind with h' | ⟨n, h'⟩ <;> subst h' <;> simp at h
    · rcases exchangePhase_event_kinds h with h' | h' | h' | h' | h' <;>
        rcases hkind with h'' | ⟨n, h''⟩ <;> subst h'' <;> simp at h'
    · rcases hkind with h' | ⟨n, h'⟩ <;> subst h' <;> simp at h
    · have hkind2 : Event.blindAdjust ∈ sizePolicyAndEmit cp r ∨
          ∃ n, Event.adjust n ∈ sizePolicyAndEmit cp r := by
        rcases hkind with h' | ⟨n, h'⟩
        · subst h'
          exact Or.inl hmem
        · subst h'
          exact Or.inr ⟨n, hmem⟩
      exact (estimator_sizePolicy_udp hkind2).1

/-- C9: the size estimator is updated exactly for UDP clients — a non-UDP
client never triggers blindAdjust or adjust; for a written UDP packet carrying
TC the task records blindAdjust, otherwise it records adjust fed with
ResponseOverhead plus the written length; and any estimator event implies the
client protocol was UDP. -/
theorem c9_estimator_exactly_udp (serverInfo : Option ServerInfo)
    (cp sp : String) (query : List Nat)
    (qp : List Nat → QueryPluginsResult) (env : UpstreamEnv) :
    (cp ≠ "udp" →
       Event.blindAdjust ∉ processIncomingQuery serverInfo cp sp query qp env ∧
       ∀ n, Event.adjust n ∉ processIncomingQuery serverInfo cp sp query qp env) ∧
    (∀ b, Event.writeClient b ∈
            processIncomingQuery serverInfo cp sp query qp env →
       cp = "udp" →
       (HasTCFlag b = true →
          Event.blindAdjust ∈ processIncomingQuery serverInfo cp sp query qp env) ∧
       (HasTCFlag b = false →
          Event.adjust (ResponseOverhead + b.length) ∈
            processIncomingQuery serverInfo cp sp query qp env)) ∧
    ((Event.blindAdjust ∈ processIncomingQuery serverInfo cp sp query qp env ∨
        ∃ n, Event.adjust n ∈ processIncomingQuery serverInfo cp sp query qp env) →
       cp = "udp") := by
  refine ⟨?_, ?_, ?_⟩
  · intro hcp
    constructor
    · intro h
      exact hcp (estimator_mem_process (Or.inl rfl) h)
    · intro n h
      exact hcp (estimator_mem_process (Or.inr ⟨n, rfl⟩) h)
  · intro b hb hcp
    subst hcp
    cases serverInfo with
    | none =>
      exfalso
      unfold processIncomingQuery at hb
      split at hb
      · simp at hb
      · simp at hb
    | some si =>
      rcases mem_processIncomingQuery hb with h | h | h | ⟨r, hr, hmem⟩
      · simp at h
      · rcases exchangePhase_event_kinds h with h' | h' | h' | h' | h' <;>
          simp at h'
      · simp at h
      · have hest := writeClient_estimator hmem
        constructor
        · intro htc
          exact sizePolicy_sub_processIncomingQuery hr (hest.1 htc)
        · intro htc
          exact sizePolicy_sub_processIncomingQuery hr (hest.2 htc)
  · intro h
    rcases h with h | ⟨n, h⟩
    · exact estimator_mem_process (Or.inl rfl) h
    · exact estimator_mem_process (Or.inr ⟨n, rfl⟩) h

/-- Witness for C9: a synthesized TC-flagged response to a UDP client records
blindAdjust. -/
theorem c9_estimator_exactly_udp_witness :
    Event.blindAdjust ∈
      processIncomingQuery (some ⟨StampProtoType.dnscrypt⟩) "udp" "udp"
        (List.replicate 17 0)
        (fun q => ⟨q, PluginsAction.synthesize,
          some (some (0 :: 0 :: 2 :: List.replicate 17 0))⟩)
        ⟨none, none, none, none, fun r => r⟩ := by
  exact ((c9_estimator_exactly_udp (some ⟨StampProtoType.dnscrypt⟩) "udp" "udp"
    (List.replicate 17 0)
    (fun q => ⟨q, PluginsAction.synthesize,
      some (some (0 :: 0 :: 2 :: List.replicate 17 0))⟩)
    ⟨none, none, none, none, fun r => r⟩).2.1
    (0 :: 0 :: 2 :: List.replicate 17 0) (by decide) rfl).1 (by decide)
